import Mathlib

/-
Verification of the gold-tax cost-basis calculator (src/main.py).

Modelling conventions:
* Python Decimal values are modelled as rationals (ℚ).  The script sets a
  global context of 28 significant digits with ROUND_HALF_UP; every quantity
  appearing in a run is far below 28 significant digits, so context rounding
  of intermediate products and quotients is modelled as exact rational
  arithmetic, while the two explicit `quantize` calls (8 fractional digits
  for ounces, 2 for currency) are modelled exactly as half-away-from-zero
  rounding, which is what ROUND_HALF_UP means.
* pandas Timestamps are modelled as year/month/day triples ordered
  lexicographically; the date-indexed DataFrame is a list of rows, with
  label slicing modelled as filtering.
* Python floats (argparse type=float, CSV columns) are modelled as the
  rational values they denote; the one place where binary floating point
  arithmetic is semantically visible — `Decimal(args.shares * args.price)`
  on line 112 — is modelled with an explicit IEEE-754 binary64
  round-to-nearest-even function `doubleRound` (normal range; overflow and
  subnormals never arise for the magnitudes involved).
* Exceptions are modelled with Except; the try/except structure of `main`
  (lines 113-170) is modelled by `program`, including the fact that the
  KeyError handler on line 169 reads the attribute `args.date`, which the
  argument parser never defines.
-/

namespace GoldTax

/-- Calendar date, ordered lexicographically; models a pandas Timestamp. -/
structure Date where
  year : Int
  month : Int
  day : Int
deriving DecidableEq

/-- Lexicographic order on dates, as pandas compares Timestamps. -/
def Date.le (a b : Date) : Prop :=
  a.year < b.year ∨
    (a.year = b.year ∧ (a.month < b.month ∨ (a.month = b.month ∧ a.day ≤ b.day)))

instance : LE Date := ⟨Date.le⟩

instance (a b : Date) : Decidable (a ≤ b) :=
  decidable_of_iff
    (a.year < b.year ∨
      (a.year = b.year ∧ (a.month < b.month ∨ (a.month = b.month ∧ a.day ≤ b.day))))
    Iff.rfl

/-- January 1 of a given year; models pd.to_datetime(str(y + 1) + "-01-01"). -/
def jan1 (y : Int) : Date := ⟨y, 1, 1⟩

/-- One row of the historical table: the CSV columns OuncesPerShare,
OuncesSold and ProceedsPerShare, keyed by Date. -/
structure Row where
  date : Date
  ouncesPerShare : ℚ
  ouncesSold : ℚ
  proceedsPerShare : ℚ
deriving DecidableEq

/-- The date-indexed DataFrame read by read_csv. -/
abbrev Table := List Row

/-- The Python exceptions that can be raised inside the try block of main:
KeyError from exact-label lookups, decimal.DivisionByZero from x/0 with
x nonzero, decimal.InvalidOperation from 0/0, and AttributeError from the
buggy KeyError handler itself. -/
inductive PyErr where
  | KeyErr
  | DivisionByZero
  | InvalidOperation
  | AttributeError
deriving DecidableEq

/-- Rows with date at or after d; models the label slice df[d:]. -/
def sliceFrom (df : Table) (d : Date) : Table :=
  df.filter (fun r => decide (d ≤ r.date))

/-- Rows within the inclusive label range [d, e]; models df.loc[d:e]. -/
def sliceRange (df : Table) (d e : Date) : Table :=
  df.filter (fun r => decide (d ≤ r.date) && decide (r.date ≤ e))

/-- Rows of one calendar year; the row set selected by df.loc[str(y)]. -/
def sliceYear (df : Table) (y : Int) : Table :=
  df.filter (fun r => decide (r.date.year = y))

/-- Partial-string year lookup df.loc[str(y)] (line 127): pandas raises
KeyError when no row of the DatetimeIndex falls in that year. -/
def sliceYearE (df : Table) (y : Int) : Except PyErr Table :=
  let s := sliceYear df y
  if s.isEmpty then .error PyErr.KeyErr else .ok s

/-- Round a rational to an integer, ties away from zero: the meaning of
decimal.ROUND_HALF_UP. -/
def roundHalfAway (x : ℚ) : ℤ :=
  if x < 0 then -(Int.floor (-x + 1 / 2)) else Int.floor (x + 1 / 2)

/-- Decimal.quantize to 2 fractional digits under ROUND_HALF_UP. -/
def quantize2 (x : ℚ) : ℚ := (roundHalfAway (x * 100) : ℚ) / 100

/-- Decimal.quantize to 8 fractional digits under ROUND_HALF_UP. -/
def quantize8 (x : ℚ) : ℚ :=
  (roundHalfAway (x * 100000000) : ℚ) / 100000000

/-- Number of binary digits of n, computed with explicit fuel so that the
kernel can evaluate it. -/
def natBitsAux : ℕ → ℕ → ℕ
  | 0, _ => 0
  | fuel + 1, n => if n = 0 then 0 else natBitsAux fuel (n / 2) + 1

/-- Number of binary digits of n. -/
def natBits (n : ℕ) : ℕ := natBitsAux n n

/-- Round a rational to an integer, ties to even: IEEE-754 default rounding
of the significand. -/
def roundHalfEven (x : ℚ) : ℤ :=
  let n := Int.floor x
  let f := x - n
  if f < 1 / 2 then n
  else if 1 / 2 < f then n + 1
  else if n % 2 = 0 then n else n + 1

/-- Binary exponent of a positive rational q: the unique e with
2 ^ e ≤ q < 2 ^ (e + 1). -/
def binExp (q : ℚ) : ℤ :=
  let k : ℤ := (natBits q.num.toNat : ℤ) - (natBits q.den : ℤ)
  if (2 : ℚ) ^ k ≤ q then k else k - 1

/-- Nearest IEEE-754 binary64 value of a positive rational (normal range):
53-bit significand, round to nearest, ties to even. -/
def doubleRoundPos (q : ℚ) : ℚ :=
  let e : ℤ := binExp q
  (roundHalfEven (q * 2 ^ (52 - e)) : ℚ) * 2 ^ (e - 52)

/-- Nearest IEEE-754 binary64 value of a rational in the normal range.
Models the value of a Python float expression, e.g. the product
args.shares * args.price on line 112. -/
def doubleRound (q : ℚ) : ℚ :=
  if q = 0 then 0 else if q < 0 then -(doubleRoundPos (-q)) else doubleRoundPos q

/-- step1 (lines 15-30): ounces owned = OuncesPerShare at the exact
acquisition date times shares, quantized to 8 places.  df.loc[date, c]
raises KeyError when the date is absent. -/
def step1 (df : Table) (d : Date) (shares : ℚ) : Except PyErr ℚ :=
  match df.find? (fun r => decide (r.date = d)) with
  | none => .error PyErr.KeyErr
  | some r => .ok (quantize8 (r.ouncesPerShare * shares))

/-- step2 (lines 33-46): cumulative OuncesSold over df[d:], times shares,
quantized to 8 places.  An empty slice sums to 0. -/
def step2 (df : Table) (d : Date) (shares : ℚ) : ℚ :=
  quantize8 (((sliceFrom df d).map Row.ouncesSold).sum * shares)

/-- step3 (lines 49-62): cost of gold sold = (sold / ounces) * basis
quantized to 2 places.  With ounces = 0, Python Decimal division raises
DivisionByZero (sold nonzero) or InvalidOperation (0/0); both propagate. -/
def step3 (ounces sold basis : ℚ) : Except PyErr ℚ :=
  if ounces = 0 then
    if sold = 0 then .error PyErr.InvalidOperation else .error PyErr.DivisionByZero
  else .ok (quantize2 (sold / ounces * basis))

/-- step4 (lines 65-82): proceeds over df[d:] times shares quantized to
2 places, minus the cost of gold sold. -/
def step4 (df : Table) (d : Date) (shares cost_sold : ℚ) : ℚ :=
  quantize2 (((sliceFrom df d).map Row.proceedsPerShare).sum * shares) - cost_sold

/-- previous_years_basis (lines 85-106): one carry-forward transition on the
pair (costBasis, remainingOunces), applied to one year of table data. -/
def previous_years_basis (df : Table) (b : ℚ × ℚ) (d : Date) (shares : ℚ) :
    Except PyErr (ℚ × ℚ) :=
  let ounces := b.2
  let sold := step2 df d shares
  let remaining := ounces - sold
  match step3 ounces sold b.1 with
  | .error e => .error e
  | .ok cost_sold => .ok (b.1 - cost_sold, remaining)

/-- The carry-forward loop of main (lines 124-133), with the iteration count
made explicit: the while loop runs once per year y with
year_acquired ≤ y < args.year.  Besides the final state and effective date,
the result carries an instrumentation trace listing, for each executed
transition, the calendar year whose table slice it consumed and the
effective start date it measured sales from; the trace does not influence
the computed state. -/
def carryLoop (df : Table) (shares : ℚ) :
    ℕ → ℤ → (ℚ × ℚ) → Date → Except PyErr ((ℚ × ℚ) × Date × List (ℤ × Date))
  | 0, _, s, d => .ok (s, d, [])
  | n + 1, y, s, d =>
    match sliceYearE df y with
    | .error e => .error e
    | .ok dfy =>
      match previous_years_basis dfy s d shares with
      | .error e => .error e
      | .ok s2 =>
        match carryLoop df shares n (y + 1) s2 (jan1 (y + 1)) with
        | .error e => .error e
        | .ok r => .ok (r.1, r.2.1, (y, d) :: r.2.2)

/-- The Basis Carry-Forward Engine: lines 124-133 run the loop body exactly
max(0, args.year - year_acquired) times. -/
def carryForward (df : Table) (shares : ℚ) (yearAcquired targetYear : ℤ)
    (s : ℚ × ℚ) (d : Date) : Except PyErr ((ℚ × ℚ) × Date × List (ℤ × Date)) :=
  carryLoop df shares (targetYear - yearAcquired).toNat yearAcquired s d

/-- The report printed by main (lines 135-163): starting basis and ounces,
ounces sold, cost of gold sold, gain/loss, adjusted basis. -/
structure Report where
  starting_basis : ℚ
  starting_ounces : ℚ
  ounces_sold : ℚ
  cost_sold : ℚ
  gain_loss : ℚ
  adjusted_basis : ℚ
deriving DecidableEq

/-- The target-year settlement of main (lines 144-163): slice the table to
[date, end_date], then run step2, step3, step4 and compute the adjusted
basis as basis - cost_sold. -/
def settle (df : Table) (d e : Date) (shares : ℚ) (s : ℚ × ℚ) :
    Except PyErr Report :=
  let dfr := sliceRange df d e
  let ounces := s.2
  let basis := s.1
  let ounces_sold := step2 dfr d shares
  match step3 ounces ounces_sold basis with
  | .error er => .error er
  | .ok cost_sold =>
      .ok ⟨basis, ounces, ounces_sold, cost_sold, step4 dfr d shares cost_sold,
        basis - cost_sold⟩

/-- The CLI arguments defined by the argparse parser (lines 174-196), with
shares and price carrying the rational value of the parsed Python float. -/
structure Args where
  ticker : String
  date_acquired : Date
  shares : ℚ
  price : ℚ
  year : ℤ
  date_sold : Option Date

/-- The attribute names the argparse Namespace actually defines.  Note that
"date" is not among them: the handler on line 169 reads args.date, but the
parser only defines args.date_acquired. -/
def argsHasAttr (s : String) : Bool :=
  s = "ticker" || s = "date_acquired" || s = "shares" || s = "price" ||
    s = "year" || s = "date_sold"

/-- Line 112: basis = Decimal(args.shares * args.price).quantize("1.00").
The multiplication happens on Python floats, so its result is the binary64
rounding of the rational product; Decimal then converts that binary value
exactly and quantize rounds it to cents. -/
def basisInit (shares price : ℚ) : ℚ := quantize2 (doubleRound (shares * price))

/-- The body of the try block of main (lines 113-163), given an already
loaded table: compute the purchase basis and initial ounces, carry the
basis forward to the target year, then settle that year. -/
def mainRun (df : Table) (a : Args) : Except PyErr Report :=
  let basis := basisInit a.shares a.price
  match step1 df a.date_acquired a.shares with
  | .error e => .error e
  | .ok initial_ounces =>
    match carryForward df a.shares a.date_acquired.year a.year
        (basis, initial_ounces) a.date_acquired with
    | .error e => .error e
    | .ok cf =>
      let endDate := match a.date_sold with
        | some e2 => e2
        | none => ⟨a.year, 12, 31⟩
      settle df cf.2.1 endDate a.shares cf.1

/-- Observable outcome of one invocation: a printed report, an exit(1) with
a printed message, or an uncaught Python exception (traceback). -/
inductive Outcome where
  | report : Report → Outcome
  | exit1 : String → Outcome
  | uncaught : PyErr → Outcome
deriving DecidableEq

/-- The whole of main with its try/except structure (lines 109-170).  The
table argument is none when opening ticker.csv raises FileNotFoundError.
Only FileNotFoundError and KeyError have handlers; the KeyError handler
formats an f-string that reads args.date, an attribute the parser never
defines, so the handler itself raises an uncaught AttributeError.  Every
other exception, in particular the decimal division errors, is uncaught. -/
def program (table : Option Table) (a : Args) : Outcome :=
  match table with
  | none => Outcome.exit1 ("Could not find " ++ a.ticker ++ ".csv")
  | some df =>
    match mainRun df a with
    | .ok r => Outcome.report r
    | .error PyErr.KeyErr =>
        if argsHasAttr "date" then Outcome.exit1 "Date args.date not found."
        else Outcome.uncaught PyErr.AttributeError
    | .error e => Outcome.uncaught e

/-- The sequence of per-year quantized sale amounts that the carry-forward
loop would consume: element k is step2 applied to the year slice for
y + k, measured from the effective date of that iteration (the acquisition
date for k = 0, January 1 of year y + k afterwards). -/
def soldSeq (df : Table) (shares : ℚ) : ℕ → ℤ → Date → List ℚ
  | 0, _, _ => []
  | n + 1, y, d =>
      step2 (sliceYear df y) d shares :: soldSeq df shares n (y + 1) (jan1 (y + 1))

/-- A rational is a whole number of cents: the form every Decimal quantized
to two places has. -/
def isCents (x : ℚ) : Prop := ∃ k : ℤ, x = (k : ℚ) / 100

/-- Spec-side definition, written from the claim wording for comparison
with the engine: starting at year y with effective date d, the engine is
described as performing one transition per calendar year, the first
measured from d, every later one measured from January 1 of its own year,
which is also the date set after the preceding transition. -/
def specTrace : ℕ → ℤ → Date → List (ℤ × Date)
  | 0, _, _ => []
  | n + 1, y, d => (y, d) :: specTrace n (y + 1) (jan1 (y + 1))

theorem roundHalfAway_nonneg {x : ℚ} (h : 0 ≤ x) : 0 ≤ roundHalfAway x := by
  rw [roundHalfAway, if_neg (not_lt.mpr h)]
  exact Int.floor_nonneg.mpr (by linarith)

theorem quantize2_nonneg {x : ℚ} (h : 0 ≤ x) : 0 ≤ quantize2 x := by
  have h2 : (0 : ℤ) ≤ roundHalfAway (x * 100) :=
    roundHalfAway_nonneg (mul_nonneg h (by norm_num))
  rw [quantize2]
  exact div_nonneg (by exact_mod_cast h2) (by norm_num)

theorem quantize8_nonneg {x : ℚ} (h : 0 ≤ x) : 0 ≤ quantize8 x := by
  have h2 : (0 : ℤ) ≤ roundHalfAway (x * 100000000) :=
    roundHalfAway_nonneg (mul_nonneg h (by norm_num))
  rw [quantize8]
  exact div_nonneg (by exact_mod_cast h2) (by norm_num)

theorem roundHalfAway_le {x : ℚ} {k : ℤ} (hx : 0 ≤ x) (h : x ≤ k) :
    roundHalfAway x ≤ k := by
  rw [roundHalfAway, if_neg (not_lt.mpr hx)]
  have h2 : x + 1 / 2 < ((k + 1 : ℤ) : ℚ) := by push_cast; linarith
  exact Int.lt_add_one_iff.mp (Int.floor_lt.mpr h2)

theorem quantize2_le_of_isCents {x y : ℚ} (hx : 0 ≤ x) (hxy : x ≤ y)
    (hy : isCents y) : quantize2 x ≤ y := by
  obtain ⟨k, rfl⟩ := hy
  have h1 : roundHalfAway (x * 100) ≤ k :=
    roundHalfAway_le (by positivity) (by linarith)
  have h2 : ((roundHalfAway (x * 100) : ℤ) : ℚ) ≤ (k : ℚ) := by exact_mod_cast h1
  rw [quantize2]
  linarith

theorem isCents_quantize2 (x : ℚ) : isCents (quantize2 x) :=
  ⟨roundHalfAway (x * 100), rfl⟩

theorem isCents_sub {x y : ℚ} (hx : isCents x) (hy : isCents y) :
    isCents (x - y) := by
  obtain ⟨a, rfl⟩ := hx
  obtain ⟨b, rfl⟩ := hy
  exact ⟨a - b, by push_cast; ring⟩

theorem step2_nonneg {df : Table} {d : Date} {shares : ℚ}
    (hOS : ∀ r ∈ df, 0 ≤ r.ouncesSold) (hsh : 0 ≤ shares) :
    0 ≤ step2 df d shares := by
  rw [step2]
  apply quantize8_nonneg
  apply mul_nonneg _ hsh
  apply List.sum_nonneg
  intro x hx
  simp only [List.mem_map] at hx
  obtain ⟨r, hr, rfl⟩ := hx
  exact hOS r (List.mem_of_mem_filter hr)

theorem soldSeq_mem_nonneg {df : Table} {shares : ℚ}
    (hOS : ∀ r ∈ df, 0 ≤ r.ouncesSold) (hsh : 0 ≤ shares) :
    ∀ n (y : ℤ) (d : Date), ∀ x ∈ soldSeq df shares n y d, 0 ≤ x := by
  intro n
  induction n with
  | zero => intro y d x hx; simp [soldSeq] at hx
  | succ n ih =>
    intro y d x hx
    rw [soldSeq] at hx
    rcases List.mem_cons.mp hx with h | h
    · exact h ▸ step2_nonneg (fun r hr => hOS r (List.mem_of_mem_filter hr)) hsh
    · exact ih _ _ _ h

theorem previous_years_basis_ok {df : Table} {s : ℚ × ℚ} {d : Date}
    {shares : ℚ} {out : ℚ × ℚ}
    (h : previous_years_basis df s d shares = .ok out) :
    s.2 ≠ 0 ∧
      out = (s.1 - quantize2 (step2 df d shares / s.2 * s.1),
             s.2 - step2 df d shares) := by
  by_cases h0 : s.2 = 0
  · exfalso
    by_cases h1 : step2 df d shares = 0 <;>
      simp [previous_years_basis, step3, h0, h1] at h
  · refine ⟨h0, ?_⟩
    simp only [previous_years_basis, step3, if_neg h0, Except.ok.injEq] at h
    exact h.symm

theorem settle_ok {df : Table} {d e : Date} {shares : ℚ} {s : ℚ × ℚ}
    {r : Report} (h : settle df d e shares s = .ok r) :
    ∃ c, step3 s.2 (step2 (sliceRange df d e) d shares) s.1 = .ok c ∧
      r = ⟨s.1, s.2, step2 (sliceRange df d e) d shares, c,
           step4 (sliceRange df d e) d shares c, s.1 - c⟩ := by
  rw [settle] at h
  cases h3 : step3 s.2 (step2 (sliceRange df d e) d shares) s.1 with
  | error er => rw [h3] at h; simp at h
  | ok c =>
    rw [h3] at h
    simp only [Except.ok.injEq] at h
    exact ⟨c, rfl, h.symm⟩

theorem carryLoop_succ_ok {df : Table} {shares : ℚ} {n : ℕ} {y : ℤ}
    {s : ℚ × ℚ} {d : Date} {out}
    (h : carryLoop df shares (n + 1) y s d = .ok out) :
    ∃ dfy s2 r, sliceYearE df y = .ok dfy ∧
      previous_years_basis dfy s d shares = .ok s2 ∧
      carryLoop df shares n (y + 1) s2 (jan1 (y + 1)) = .ok r ∧
      out = (r.1, r.2.1, (y, d) :: r.2.2) := by
  rw [carryLoop] at h
  split at h
  next e heq => simp at h
  next dfy heq =>
    split at h
    next e heq2 => simp at h
    next s2 heq2 =>
      split at h
      next e heq3 => simp at h
      next r heq3 =>
        simp only [Except.ok.injEq] at h
        exact ⟨dfy, s2, r, heq, heq2, heq3, h.symm⟩

theorem sliceYearE_ok {df : Table} {y : ℤ} {dfy : Table}
    (h : sliceYearE df y = .ok dfy) : dfy = sliceYear df y := by
  rw [sliceYearE] at h
  by_cases he : (sliceYear df y).isEmpty <;> simp [he] at h
  exact h.symm

/-- Claim C1: a carry-forward year transition maps the state
(costBasis, remainingOunces) to the state whose remaining ounces are the old
ounces minus the quantized year aggregate sold = round8(sum of OuncesSold
since the effective date times shareCount), and whose basis is the old basis
minus round2(sold / oldRemaining * oldBasis), the division using the
pre-subtraction remaining ounces. -/
theorem claim_C1_transition (df : Table) (s : ℚ × ℚ) (d : Date) (shares : ℚ)
    (h : s.2 ≠ 0) :
    previous_years_basis df s d shares =
      .ok (s.1 -
            quantize2
              (quantize8 (((sliceFrom df d).map Row.ouncesSold).sum * shares) / s.2 * s.1),
           s.2 - quantize8 (((sliceFrom df d).map Row.ouncesSold).sum * shares)) := by
  simp only [previous_years_basis, step2, step3, if_neg h]

/-- Claim C1 witness: the transition hypothesis remainingOunces ≠ 0 holds at
a concrete state and the equation of claim_C1_transition follows there. -/
theorem claim_C1_witness :
    ((95 : ℚ) / 10 ≠ 0) ∧
      previous_years_basis [⟨⟨2019, 2, 1⟩, 1 / 10, 2 / 100, 3 / 100⟩]
          ((1800 : ℚ), (95 : ℚ) / 10) ⟨2019, 1, 15⟩ 100 =
        .ok ((1800 : ℚ) -
              quantize2
                (quantize8
                    ((((sliceFrom [⟨⟨2019, 2, 1⟩, 1 / 10, 2 / 100, 3 / 100⟩]
                            ⟨2019, 1, 15⟩).map Row.ouncesSold).sum) * 100) /
                    ((95 : ℚ) / 10) * 1800),
             (95 : ℚ) / 10 -
              quantize8
                ((((sliceFrom [⟨⟨2019, 2, 1⟩, 1 / 10, 2 / 100, 3 / 100⟩]
                        ⟨2019, 1, 15⟩).map Row.ouncesSold).sum) * 100)) :=
  ⟨by norm_num,
    claim_C1_transition [⟨⟨2019, 2, 1⟩, 1 / 10, 2 / 100, 3 / 100⟩]
      ((1800 : ℚ), (95 : ℚ) / 10) ⟨2019, 1, 15⟩ 100 (by norm_num)⟩

/-- Claim C3: for each single settlement — a carry-forward step and the
final target-year settlement — the computed cost of gold sold plus the
ending basis equals exactly the starting basis. -/
theorem claim_C3_conservation (df : Table) (s : ℚ × ℚ) (d e : Date)
    (shares : ℚ) (s2 : ℚ × ℚ) (r : Report)
    (h1 : previous_years_basis df s d shares = .ok s2)
    (h2 : settle df d e shares s = .ok r) :
    (∃ c, step3 s.2 (step2 df d shares) s.1 = .ok c ∧ c + s2.1 = s.1) ∧
      r.cost_sold + r.adjusted_basis = r.starting_basis := by
  obtain ⟨h0, hs2⟩ := previous_years_basis_ok h1
  obtain ⟨c, hc, hr⟩ := settle_ok h2
  constructor
  · refine ⟨quantize2 (step2 df d shares / s.2 * s.1), ?_, ?_⟩
    · rw [step3, if_neg h0]
    · rw [hs2]; ring
  · rw [hr]; ring

/-- Claim C3 witness: a concrete state and table for which both a
carry-forward step and a target-year settlement succeed, and the
conservation identity of claim_C3_conservation holds for both. -/
theorem claim_C3_witness :
    previous_years_basis [⟨⟨2020, 1, 15⟩, 1 / 10, 1 / 1000, 3 / 200⟩]
        ((1800 : ℚ), (19 : ℚ) / 2) ⟨2020, 1, 15⟩ 100 =
      .ok ((178105 : ℚ) / 100, (47 : ℚ) / 5) ∧
      settle [⟨⟨2020, 1, 15⟩, 1 / 10, 1 / 1000, 3 / 200⟩] ⟨2020, 1, 15⟩
          ⟨2020, 12, 31⟩ 100 ((1800 : ℚ), (19 : ℚ) / 2) =
        .ok ⟨1800, 19 / 2, 1 / 10, 1895 / 100, -349 / 20, 178105 / 100⟩ ∧
      ((∃ c, step3 ((19 : ℚ) / 2)
            (step2 [⟨⟨2020, 1, 15⟩, 1 / 10, 1 / 1000, 3 / 200⟩]
              ⟨2020, 1, 15⟩ 100) 1800 = .ok c ∧
            c + (178105 : ℚ) / 100 = 1800) ∧
        (1895 : ℚ) / 100 + 178105 / 100 = 1800) := by
  have hr1 : previous_years_basis [⟨⟨2020, 1, 15⟩, 1 / 10, 1 / 1000, 3 / 200⟩]
      ((1800 : ℚ), (19 : ℚ) / 2) ⟨2020, 1, 15⟩ 100 =
      .ok ((178105 : ℚ) / 100, (47 : ℚ) / 5) := by
    norm_num +decide [previous_years_basis, step2, step3, sliceFrom,
      List.filter, quantize8, quantize2, roundHalfAway]
  have hr2 : settle [⟨⟨2020, 1, 15⟩, 1 / 10, 1 / 1000, 3 / 200⟩] ⟨2020, 1, 15⟩
      ⟨2020, 12, 31⟩ 100 ((1800 : ℚ), (19 : ℚ) / 2) =
      .ok ⟨1800, 19 / 2, 1 / 10, 1895 / 100, -349 / 20, 178105 / 100⟩ := by
    norm_num +decide [settle, sliceRange, step2, step3, step4, sliceFrom,
      List.filter, quantize8, quantize2, roundHalfAway]
  exact ⟨hr1, hr2,
    claim_C3_conservation [⟨⟨2020, 1, 15⟩, 1 / 10, 1 / 1000, 3 / 200⟩]
      ((1800 : ℚ), (19 : ℚ) / 2) ⟨2020, 1, 15⟩ ⟨2020, 12, 31⟩ 100
      ((178105 : ℚ) / 100, (47 : ℚ) / 5)
      ⟨1800, 19 / 2, 1 / 10, 1895 / 100, -349 / 20, 178105 / 100⟩ hr1 hr2⟩

/-- Claim C5: when the acquisition year equals the target year the
carry-forward engine performs zero transitions — the state and the
effective start date reach the settlement unchanged and the transition
trace is empty. -/
theorem claim_C5_no_op (df : Table) (shares : ℚ) (y : ℤ) (s : ℚ × ℚ)
    (d : Date) : carryForward df shares y y s d = .ok (s, d, []) := by
  rw [carryForward, sub_self]
  rfl

/-- Claim C9 counterexample: a transition whose year aggregate of
OuncesSold is 0 but whose incoming remainingOunces is 0 (a lot depleted in
an earlier year) does not return the state unchanged — the Decimal division
0/0 raises InvalidOperation instead. -/
theorem claim_C9_counterexample :
    previous_years_basis [⟨⟨2020, 3, 1⟩, 1 / 10, 0, 0⟩] ((100 : ℚ), 0)
        ⟨2020, 1, 1⟩ 1 = .error PyErr.InvalidOperation ∧
      previous_years_basis [⟨⟨2020, 3, 1⟩, 1 / 10, 0, 0⟩] ((100 : ℚ), 0)
        ⟨2020, 1, 1⟩ 1 ≠ .ok ((100 : ℚ), 0) := by
  have h : previous_years_basis [⟨⟨2020, 3, 1⟩, 1 / 10, 0, 0⟩] ((100 : ℚ), 0)
      ⟨2020, 1, 1⟩ 1 = .error PyErr.InvalidOperation := by
    norm_num +decide [previous_years_basis, step2, step3, sliceFrom,
      List.filter, quantize8, roundHalfAway]
  exact ⟨h, by rw [h]; simp⟩

/-- Claim C9 amended: provided the incoming remainingOunces is nonzero, a
carry-forward transition whose year aggregate of OuncesSold since the
effective date is 0 returns the BasisState unchanged. -/
theorem claim_C9_amended (df : Table) (s : ℚ × ℚ) (d : Date) (shares : ℚ)
    (h0 : s.2 ≠ 0) (hz : ((sliceFrom df d).map Row.ouncesSold).sum = 0) :
    previous_years_basis df s d shares = .ok s := by
  have hs : step2 df d shares = 0 := by
    rw [step2, hz, zero_mul]
    norm_num [quantize8, roundHalfAway]
  have hq : quantize2 (0 / s.2 * s.1) = 0 := by
    rw [zero_div, zero_mul]
    norm_num [quantize2, roundHalfAway]
  simp only [previous_years_basis, hs, step3, if_neg h0, hq, sub_zero]

/-- Claim C9 amended witness: a concrete state with nonzero remaining
ounces and a concrete year table whose aggregate since the effective date
is 0 are mapped to themselves. -/
theorem claim_C9_witness :
    ((95 : ℚ) / 10 ≠ 0) ∧
      ((sliceFrom [⟨⟨2021, 3, 1⟩, 1 / 10, 0, 4 / 100⟩]
          ⟨2021, 1, 1⟩).map Row.ouncesSold).sum = 0 ∧
      previous_years_basis [⟨⟨2021, 3, 1⟩, 1 / 10, 0, 4 / 100⟩]
        ((1800 : ℚ), (95 : ℚ) / 10) ⟨2021, 1, 1⟩ 100 =
        .ok ((1800 : ℚ), (95 : ℚ) / 10) :=
  ⟨by norm_num, by norm_num +decide [sliceFrom, List.filter],
    claim_C9_amended [⟨⟨2021, 3, 1⟩, 1 / 10, 0, 4 / 100⟩]
      ((1800 : ℚ), (95 : ℚ) / 10) ⟨2021, 1, 1⟩ 100 (by norm_num)
      (by norm_num +decide [sliceFrom, List.filter])⟩

/-- Claim C2: across any run of the carry-forward loop on table data with
non-negative OuncesSold entries, non-negative share count, and the total of
the per-year quantized sale amounts bounded by the starting remaining
ounces, with a non-negative whole-cents starting basis: the remaining
ounces and the cost basis at the end are at most their starting values and
neither is negative.  Quantifying over every iteration count n covers every
intermediate state of a longer run, so remainingOunces and costBasis are
non-increasing along the whole sequence and never negative. -/
theorem claim_C2_monotonic (df : Table) (shares : ℚ) (n : ℕ) (y : ℤ)
    (s : ℚ × ℚ) (d : Date) (out : (ℚ × ℚ) × Date × List (ℤ × Date))
    (hOS : ∀ r ∈ df, 0 ≤ r.ouncesSold) (hsh : 0 ≤ shares)
    (hsum : (soldSeq df shares n y d).sum ≤ s.2)
    (hb0 : 0 ≤ s.1) (hbc : isCents s.1)
    (h : carryLoop df shares n y s d = .ok out) :
    out.1.2 ≤ s.2 ∧ 0 ≤ out.1.2 ∧ out.1.1 ≤ s.1 ∧ 0 ≤ out.1.1 := by
  induction n generalizing y s d out with
  | zero =>
    rw [carryLoop] at h
    simp only [Except.ok.injEq] at h
    subst h
    have hsum0 : (0 : ℚ) ≤ s.2 := by
      simpa [soldSeq] using hsum
    exact ⟨le_refl _, hsum0, le_refl _, hb0⟩
  | succ n ih =>
    obtain ⟨dfy, s2, r, hslice, hprev, hrec, hout⟩ := carryLoop_succ_ok h
    have hdfy : dfy = sliceYear df y := sliceYearE_ok hslice
    obtain ⟨h0, hs2⟩ := previous_years_basis_ok hprev
    have hsold0 : 0 ≤ step2 dfy d shares := by
      refine step2_nonneg (fun r2 hr2 => hOS r2 ?_) hsh
      rw [hdfy] at hr2
      exact List.mem_of_mem_filter hr2
    have hrest0 : 0 ≤ (soldSeq df shares n (y + 1) (jan1 (y + 1))).sum := by
      refine List.sum_nonneg (fun x hx => ?_)
      exact soldSeq_mem_nonneg hOS hsh n (y + 1) (jan1 (y + 1)) x hx
    have hsumhead : step2 dfy d shares +
        (soldSeq df shares n (y + 1) (jan1 (y + 1))).sum ≤ s.2 := by
      have := hsum
      rw [soldSeq, List.sum_cons, ← hdfy] at this
      exact this
    have hsoldle : step2 dfy d shares ≤ s.2 := by linarith
    have hpos : 0 < s.2 := lt_of_le_of_ne (le_trans hsold0 hsoldle) (Ne.symm h0)
    have hx0 : 0 ≤ step2 dfy d shares / s.2 * s.1 :=
      mul_nonneg (div_nonneg hsold0 hpos.le) hb0
    have hratio : step2 dfy d shares / s.2 * s.1 ≤ s.1 :=
      mul_le_of_le_one_left hb0 ((div_le_one hpos).mpr hsoldle)
    have hc0 : 0 ≤ quantize2 (step2 dfy d shares / s.2 * s.1) :=
      quantize2_nonneg hx0
    have hcle : quantize2 (step2 dfy d shares / s.2 * s.1) ≤ s.1 :=
      quantize2_le_of_isCents hx0 hratio hbc
    have ihres := ih (y + 1) s2 (jan1 (y + 1)) r
      (by rw [hs2]; simp only; linarith)
      (by rw [hs2]; simp only; linarith)
      (by rw [hs2]
          exact isCents_sub hbc (isCents_quantize2 _))
      hrec
    rw [hout]
    simp only
    rw [hs2] at ihres
    simp only at ihres
    exact ⟨by linarith [ihres.1], ihres.2.1, by linarith [ihres.2.2.1],
      ihres.2.2.2⟩

/-- Claim C2 witness: a concrete one-transition run satisfying all the
hypotheses — non-negative table sales, total quantized sales within the
starting ounces, non-negative whole-cents basis — for which the bounds of
claim_C2_monotonic hold. -/
theorem claim_C2_witness :
    (∀ r ∈ [(⟨⟨2019, 2, 1⟩, 1 / 10, 1 / 100, 0⟩ : Row)], 0 ≤ r.ouncesSold) ∧
      (0 : ℚ) ≤ 1 ∧
      (soldSeq [⟨⟨2019, 2, 1⟩, 1 / 10, 1 / 100, 0⟩] 1 1 2019
          ⟨2019, 1, 15⟩).sum ≤ ((100 : ℚ), (10 : ℚ)).2 ∧
      (0 : ℚ) ≤ 100 ∧ isCents ((100 : ℚ), (10 : ℚ)).1 ∧
      carryLoop [⟨⟨2019, 2, 1⟩, 1 / 10, 1 / 100, 0⟩] 1 1 2019
          ((100 : ℚ), (10 : ℚ)) ⟨2019, 1, 15⟩ =
        .ok (((999 : ℚ) / 10, (999 : ℚ) / 100), jan1 2020,
          [(2019, ⟨2019, 1, 15⟩)]) ∧
      (((999 : ℚ) / 10, (999 : ℚ) / 100), jan1 2020,
          [((2019 : ℤ), (⟨2019, 1, 15⟩ : Date))]).1.2 ≤ 10 ∧
      (0 : ℚ) ≤ 999 / 100 ∧ (999 : ℚ) / 10 ≤ 100 ∧ (0 : ℚ) ≤ 999 / 10 := by
  have hrun : carryLoop [⟨⟨2019, 2, 1⟩, 1 / 10, 1 / 100, 0⟩] 1 1 2019
      ((100 : ℚ), (10 : ℚ)) ⟨2019, 1, 15⟩ =
      .ok (((999 : ℚ) / 10, (999 : ℚ) / 100), jan1 2020,
        [(2019, ⟨2019, 1, 15⟩)]) := by
    norm_num +decide [carryLoop, sliceYearE, sliceYear, previous_years_basis,
      step2, step3, sliceFrom, List.filter, quantize8, quantize2,
      roundHalfAway, jan1]
  have hmain := claim_C2_monotonic [⟨⟨2019, 2, 1⟩, 1 / 10, 1 / 100, 0⟩] 1 1
    2019 ((100 : ℚ), (10 : ℚ)) ⟨2019, 1, 15⟩
    (((999 : ℚ) / 10, (999 : ℚ) / 100), jan1 2020, [(2019, ⟨2019, 1, 15⟩)])
    (by intro r hr; simp at hr; rw [hr]; norm_num) (by norm_num)
    (by norm_num +decide [soldSeq, sliceYear, step2, sliceFrom, List.filter,
          quantize8, roundHalfAway])
    (by norm_num) ⟨10000, by norm_num⟩ hrun
  refine ⟨by intro r hr; simp at hr; rw [hr]; norm_num, by norm_num, ?_, ?_,
    ⟨10000, by norm_num⟩, hrun, hmain.1, hmain.2.1, hmain.2.2.1, hmain.2.2.2⟩
  · norm_num +decide [soldSeq, sliceYear, step2, sliceFrom, List.filter,
      quantize8, roundHalfAway]
  · norm_num

theorem specTrace_length : ∀ (n : ℕ) (y : ℤ) (d : Date),
    (specTrace n y d).length = n := by
  intro n
  induction n with
  | zero => intro y d; rfl
  | succ n ih =>
    intro y d
    rw [specTrace, List.length_cons, ih]

theorem specTrace_years : ∀ (n : ℕ) (y : ℤ) (d : Date),
    (specTrace n y d).map Prod.fst =
      (List.range n).map (fun k : ℕ => y + (k : ℤ)) := by
  intro n
  induction n with
  | zero => intro y d; rfl
  | succ n ih =>
    intro y d
    rw [specTrace, List.map_cons, ih, List.range_succ_eq_map, List.map_cons,
      List.map_map]
    congr 1
    · norm_num
    · refine List.map_congr_left (fun k hk => ?_)
      simp only [Function.comp_apply]
      push_cast
      ring

theorem carryLoop_trace {df : Table} {shares : ℚ} :
    ∀ (n : ℕ) (y : ℤ) (s : ℚ × ℚ) (d : Date) out,
      carryLoop df shares n y s d = .ok out →
      out.2.2 = specTrace n y d ∧
        out.2.1 = if n = 0 then d else jan1 (y + (n : ℤ)) := by
  intro n
  induction n with
  | zero =>
    intro y s d out h
    rw [carryLoop] at h
    simp only [Except.ok.injEq] at h
    subst h
    simp [specTrace]
  | succ n ih =>
    intro y s d out h
    obtain ⟨dfy, s2, r, hslice, hprev, hrec, hout⟩ := carryLoop_succ_ok h
    obtain ⟨htr, hdt⟩ := ih (y + 1) s2 (jan1 (y + 1)) r hrec
    subst hout
    refine ⟨?_, ?_⟩
    · simp only
      rw [htr, specTrace]
    · simp only [hdt]
      cases n with
      | zero => norm_num
      | succ m =>
        rw [if_neg (Nat.succ_ne_zero m), if_neg (Nat.succ_ne_zero (m + 1))]
        congr 1
        push_cast
        ring

/-- Claim C6: when the acquisition year precedes the target year, a
successful run of the carry-forward engine executes exactly
targetYear - acquisitionYear transitions; the k-th transition consumes the
year slice for acquisitionYear + k measured from the acquisition date when
k = 0 and from January 1 of its own year afterwards (the trace equals the
spec-side specTrace), and the effective date handed to the settlement is
January 1 of the target year. -/
theorem claim_C6_transitions (df : Table) (shares : ℚ) (yA yT : ℤ)
    (s : ℚ × ℚ) (d : Date) (out : (ℚ × ℚ) × Date × List (ℤ × Date))
    (hlt : yA < yT) (h : carryForward df shares yA yT s d = .ok out) :
    out.2.2.length = (yT - yA).toNat ∧
      out.2.2.map Prod.fst =
        (List.range (yT - yA).toNat).map (fun k : ℕ => yA + (k : ℤ)) ∧
      out.2.2 = specTrace (yT - yA).toNat yA d ∧
      out.2.1 = jan1 yT := by
  rw [carryForward] at h
  obtain ⟨htr, hdt⟩ := carryLoop_trace (yT - yA).toNat yA s d out h
  have hn : ((yT - yA).toNat : ℤ) = yT - yA :=
    Int.toNat_of_nonneg (by omega)
  have hnz : (yT - yA).toNat ≠ 0 := by omega
  refine ⟨?_, ?_, htr, ?_⟩
  · rw [htr, specTrace_length]
  · rw [htr, specTrace_years]
  · rw [hdt, if_neg hnz, hn]
    congr 1
    ring

/-- Claim C6 witness: a concrete two-year run (acquisition year 2018,
target year 2020) whose successful carry-forward has exactly two
transitions, for years 2018 and 2019, and hands January 1 2020 to the
settlement. -/
theorem claim_C6_witness :
    ((2018 : ℤ) < 2020) ∧
      carryForward [⟨⟨2018, 5, 1⟩, 1 / 10, 1 / 100, 0⟩,
          ⟨⟨2019, 4, 1⟩, 1 / 10, 0, 0⟩] 1 2018 2020 ((100 : ℚ), (10 : ℚ))
          ⟨2018, 3, 1⟩ =
        .ok (((999 : ℚ) / 10, (999 : ℚ) / 100), jan1 2020,
          [(2018, ⟨2018, 3, 1⟩), (2019, jan1 2019)]) ∧
      [((2018 : ℤ), (⟨2018, 3, 1⟩ : Date)), (2019, jan1 2019)].length =
        ((2020 : ℤ) - 2018).toNat ∧
      [((2018 : ℤ), (⟨2018, 3, 1⟩ : Date)), (2019, jan1 2019)].map Prod.fst =
        (List.range ((2020 : ℤ) - 2018).toNat).map (fun k : ℕ => 2018 + (k : ℤ)) ∧
      [((2018 : ℤ), (⟨2018, 3, 1⟩ : Date)), (2019, jan1 2019)] =
        specTrace ((2020 : ℤ) - 2018).toNat 2018 ⟨2018, 3, 1⟩ ∧
      jan1 2020 = jan1 2020 := by
  have hrun : carryForward [⟨⟨2018, 5, 1⟩, 1 / 10, 1 / 100, 0⟩,
      ⟨⟨2019, 4, 1⟩, 1 / 10, 0, 0⟩] 1 2018 2020 ((100 : ℚ), (10 : ℚ))
      ⟨2018, 3, 1⟩ =
      .ok (((999 : ℚ) / 10, (999 : ℚ) / 100), jan1 2020,
        [(2018, ⟨2018, 3, 1⟩), (2019, jan1 2019)]) := by
    norm_num +decide [carryForward, carryLoop, sliceYearE, sliceYear,
      previous_years_basis, step2, step3, sliceFrom, List.filter, quantize8,
      quantize2, roundHalfAway, jan1]
  have hmain := claim_C6_transitions [⟨⟨2018, 5, 1⟩, 1 / 10, 1 / 100, 0⟩,
    ⟨⟨2019, 4, 1⟩, 1 / 10, 0, 0⟩] 1 2018 2020 ((100 : ℚ), (10 : ℚ))
    ⟨2018, 3, 1⟩
    (((999 : ℚ) / 10, (999 : ℚ) / 100), jan1 2020,
      [(2018, ⟨2018, 3, 1⟩), (2019, jan1 2019)])
    (by norm_num) hrun
  exact ⟨by norm_num, hrun, hmain.1, hmain.2.1, hmain.2.2.1, hmain.2.2.2⟩

theorem natBitsAux_zero : ∀ fuel, natBitsAux fuel 0 = 0 := by
  intro fuel
  cases fuel <;> simp [natBitsAux]

theorem natBitsAux_spec : ∀ (fuel n : ℕ), 0 < n → n ≤ fuel →
    2 ^ (natBitsAux fuel n - 1) ≤ n ∧ n < 2 ^ natBitsAux fuel n := by
  intro fuel
  induction fuel with
  | zero => intro n h1 h2; omega
  | succ fuel ih =>
    intro n h1 h2
    rw [natBitsAux, if_neg (by omega : ¬ n = 0)]
    by_cases hn : n = 1
    · subst hn
      rw [show (1 / 2 : ℕ) = 0 from rfl, natBitsAux_zero]
      norm_num
    · have h2pos : 0 < n / 2 := Nat.div_pos (by omega) (by norm_num)
      have hle : n / 2 ≤ fuel := by omega
      obtain ⟨l, u⟩ := ih (n / 2) h2pos hle
      have hb : 1 ≤ natBitsAux fuel (n / 2) := by
        rcases Nat.eq_zero_or_pos (natBitsAux fuel (n / 2)) with h | h
        · rw [h] at u; simp at u; omega
        · exact h
      constructor
      · rw [Nat.add_sub_cancel]
        have hsplit : 2 ^ natBitsAux fuel (n / 2) =
            2 * 2 ^ (natBitsAux fuel (n / 2) - 1) := by
          conv_lhs => rw [show natBitsAux fuel (n / 2) =
            (natBitsAux fuel (n / 2) - 1) + 1 by omega]
          rw [pow_succ]
          ring
        rw [hsplit]
        omega
      · have hpow : 2 ^ (natBitsAux fuel (n / 2) + 1) =
            2 * 2 ^ natBitsAux fuel (n / 2) := by rw [pow_succ]; ring
        omega

theorem natBits_spec {n : ℕ} (h : 0 < n) :
    2 ^ (natBits n - 1) ≤ n ∧ n < 2 ^ natBits n :=
  natBitsAux_spec n n h le_rfl

theorem natBits_pos {n : ℕ} (h : 0 < n) : 1 ≤ natBits n := by
  obtain ⟨l, u⟩ := natBits_spec h
  by_contra h0
  have hz : natBits n = 0 := by omega
  rw [hz] at u
  simp at u
  omega

theorem natBits_boundsQ {n : ℕ} (h : 0 < n) :
    (2 : ℚ) ^ ((natBits n : ℤ) - 1) ≤ (n : ℚ) ∧
      (n : ℚ) < (2 : ℚ) ^ ((natBits n : ℤ)) := by
  obtain ⟨l, u⟩ := natBits_spec h
  have h1 : (2 : ℚ) ^ ((natBits n : ℤ) - 1) = ((2 ^ (natBits n - 1) : ℕ) : ℚ) := by
    push_cast
    rw [← zpow_natCast]
    congr 1
    have := natBits_pos h
    omega
  have h2 : (2 : ℚ) ^ ((natBits n : ℤ)) = ((2 ^ natBits n : ℕ) : ℚ) := by
    push_cast
    rw [← zpow_natCast]
  constructor
  · rw [h1]; exact_mod_cast l
  · rw [h2]; exact_mod_cast u

theorem binExp_sandwich {q : ℚ} (hq : 0 < q) :
    (2 : ℚ) ^ binExp q ≤ q ∧ q < (2 : ℚ) ^ (binExp q + 1) := by
  have hnum : (0 : ℤ) < q.num := Rat.num_pos.mpr hq
  have hacast : ((q.num.toNat : ℤ)) = q.num := Int.toNat_of_nonneg hnum.le
  have hapos : 0 < q.num.toNat := by omega
  have hbpos : 0 < q.den := q.pos
  have hqab : q = (q.num.toNat : ℚ) / (q.den : ℚ) := by
    have h0 : ((q.num.toNat : ℚ)) = ((q.num : ℤ) : ℚ) := by exact_mod_cast hacast
    rw [h0, Rat.num_div_den]
  obtain ⟨laQ, uaQ⟩ := natBits_boundsQ hapos
  obtain ⟨lbQ, ubQ⟩ := natBits_boundsQ hbpos
  have haQ : (0 : ℚ) < (q.num.toNat : ℚ) := by exact_mod_cast hapos
  have hbQ : (0 : ℚ) < (q.den : ℚ) := by exact_mod_cast hbpos
  have hm : (0 : ℚ) < (2 : ℚ) ^ ((natBits q.den : ℤ)) := zpow_pos (by norm_num) _
  have hm2 : (0 : ℚ) < (2 : ℚ) ^ ((natBits q.den : ℤ) - 1) := zpow_pos (by norm_num) _
  have lower : (2 : ℚ) ^ ((natBits q.num.toNat : ℤ) - (natBits q.den : ℤ) - 1) < q := by
    have h1 : (2 : ℚ) ^ ((natBits q.num.toNat : ℤ) - 1) /
        (2 : ℚ) ^ ((natBits q.den : ℤ)) ≤
        (q.num.toNat : ℚ) / (2 : ℚ) ^ ((natBits q.den : ℤ)) := by
      gcongr
    have h2 : (q.num.toNat : ℚ) / (2 : ℚ) ^ ((natBits q.den : ℤ)) <
        (q.num.toNat : ℚ) / (q.den : ℚ) := by
      exact div_lt_div_of_pos_left haQ hbQ ubQ
    have h3 : (2 : ℚ) ^ ((natBits q.num.toNat : ℤ) - (natBits q.den : ℤ) - 1) =
        (2 : ℚ) ^ ((natBits q.num.toNat : ℤ) - 1) /
          (2 : ℚ) ^ ((natBits q.den : ℤ)) := by
      rw [← zpow_sub₀ (by norm_num : (2 : ℚ) ≠ 0)]
      congr 1
      ring
    rw [← hqab] at h2
    rw [h3]
    linarith
  have upper : q < (2 : ℚ) ^ ((natBits q.num.toNat : ℤ) - (natBits q.den : ℤ) + 1) := by
    have h1 : (q.num.toNat : ℚ) / (q.den : ℚ) <
        (2 : ℚ) ^ ((natBits q.num.toNat : ℤ)) / (q.den : ℚ) := by
      gcongr
    have h2 : (2 : ℚ) ^ ((natBits q.num.toNat : ℤ)) / (q.den : ℚ) ≤
        (2 : ℚ) ^ ((natBits q.num.toNat : ℤ)) /
          (2 : ℚ) ^ ((natBits q.den : ℤ) - 1) := by
      gcongr
    have h3 : (2 : ℚ) ^ ((natBits q.num.toNat : ℤ) - (natBits q.den : ℤ) + 1) =
        (2 : ℚ) ^ ((natBits q.num.toNat : ℤ)) /
          (2 : ℚ) ^ ((natBits q.den : ℤ) - 1) := by
      rw [← zpow_sub₀ (by norm_num : (2 : ℚ) ≠ 0)]
      congr 1
      ring
    rw [← hqab] at h1
    rw [h3]
    linarith
  simp only [binExp]
  by_cases hcase : (2 : ℚ) ^ ((natBits q.num.toNat : ℤ) - (natBits q.den : ℤ)) ≤ q
  · rw [if_pos hcase]
    exact ⟨hcase, upper⟩
  · rw [if_neg hcase]
    push_neg at hcase
    refine ⟨le_of_lt lower, ?_⟩
    rw [sub_add_cancel]
    exact hcase

theorem binExp_eq {q : ℚ} {e : ℤ} (h1 : (2 : ℚ) ^ e ≤ q)
    (h2 : q < (2 : ℚ) ^ (e + 1)) : binExp q = e := by
  have hq : 0 < q := lt_of_lt_of_le (zpow_pos (by norm_num) e) h1
  obtain ⟨l, u⟩ := binExp_sandwich hq
  by_contra hne
  rcases lt_or_gt_of_ne hne with hlt | hgt
  · have hstep : (2 : ℚ) ^ (binExp q + 1) ≤ (2 : ℚ) ^ e :=
      zpow_le_zpow_right₀ (by norm_num) (by omega)
    linarith
  · have hstep : (2 : ℚ) ^ (e + 1) ≤ (2 : ℚ) ^ binExp q :=
      zpow_le_zpow_right₀ (by norm_num) (by omega)
    linarith

theorem doubleRoundPos_eq {q : ℚ} (e : ℤ) (h1 : (2 : ℚ) ^ e ≤ q)
    (h2 : q < (2 : ℚ) ^ (e + 1)) :
    doubleRoundPos q =
      (roundHalfEven (q * 2 ^ (52 - e)) : ℚ) * 2 ^ (e - 52) := by
  rw [doubleRoundPos, binExp_eq h1 h2]

theorem doubleRound_of_pos {q : ℚ} (hq : 0 < q) :
    doubleRound q = doubleRoundPos q := by
  rw [doubleRound, if_neg (ne_of_gt hq), if_neg (not_lt.mpr hq.le)]

/-- Claim C7 counterexample: with 1 share at a typed price of 1.005 the
parsed float price is the binary64 neighbour 4526117625507348 / 2^52 of
1.005; the basis the pipeline computes from it is 1.00, while the exact
decimal product 1 x 1.005 rounded half up to cents is 1.01. -/
theorem claim_C7_counterexample :
    basisInit 1 (doubleRound (1005 / 1000)) = 1 ∧
      quantize2 ((1 : ℚ) * (1005 / 1000)) = 101 / 100 ∧
      basisInit 1 (doubleRound (1005 / 1000)) ≠
        quantize2 ((1 : ℚ) * (1005 / 1000)) := by
  have hd : doubleRound ((1005 : ℚ) / 1000) =
      4526117625507348 / 4503599627370496 := by
    rw [doubleRound_of_pos (by norm_num),
      doubleRoundPos_eq 0 (by norm_num) (by norm_num)]
    norm_num [roundHalfEven]
  have hd2 : doubleRound ((4526117625507348 : ℚ) / 4503599627370496) =
      4526117625507348 / 4503599627370496 := by
    rw [doubleRound_of_pos (by norm_num),
      doubleRoundPos_eq 0 (by norm_num) (by norm_num)]
    norm_num [roundHalfEven]
  have h1 : basisInit 1 (doubleRound (1005 / 1000)) = 1 := by
    rw [basisInit, one_mul, hd, hd2]
    norm_num [quantize2, roundHalfAway]
  have h2 : quantize2 ((1 : ℚ) * (1005 / 1000)) = 101 / 100 := by
    norm_num [quantize2, roundHalfAway]
  exact ⟨h1, h2, by rw [h1, h2]; norm_num⟩

/-- Claim C7 amended: the initial cost basis is the 2-place half-up
quantization of the binary64 float product of the parsed share count and
price; whenever that float product is exact it therefore equals the exact
product rounded to cents, but for inputs whose product is not binary64
representable (such as price 1.005) it can differ by a cent. -/
theorem claim_C7_amended (shares price : ℚ)
    (h : doubleRound (shares * price) = shares * price) :
    basisInit shares price = quantize2 (shares * price) := by
  rw [basisInit, h]

/-- Claim C7 amended witness: 100 shares at price 18.00 have the exactly
representable product 1800, and the pipeline basis is the quantized exact
product. -/
theorem claim_C7_witness :
    doubleRound ((100 : ℚ) * 18) = 100 * 18 ∧
      basisInit 100 18 = quantize2 ((100 : ℚ) * 18) := by
  have hd : doubleRound ((100 : ℚ) * 18) = 100 * 18 := by
    norm_num
    rw [doubleRound_of_pos (by norm_num),
      doubleRoundPos_eq 10 (by norm_num) (by norm_num)]
    norm_num [roundHalfEven]
  exact ⟨hd, claim_C7_amended 100 18 hd⟩

/-- Claim C4: on a lot fully liquidated during the first carry-forward year
(1 share acquired 2019-01-02 backed by 1 ounce, with the whole ounce sold
during 2019), the target-year settlement divides by remainingOunces = 0;
the resulting decimal exception propagates out of main as an uncaught
exception — there is no distinct DepletedLot error and no handler for it. -/
theorem claim_C4_depleted_uncaught :
    program (some [⟨⟨2019, 1, 2⟩, 1, 1, 0⟩])
        ⟨"gld", ⟨2019, 1, 2⟩, 1, 10, 2020, none⟩ =
      Outcome.uncaught PyErr.InvalidOperation := by
  norm_num +decide [program, mainRun, step1, List.find?, carryForward,
    carryLoop, sliceYearE, sliceYear, previous_years_basis, step2, step3,
    settle, sliceRange, sliceFrom, List.filter, quantize8, roundHalfAway,
    jan1]

/-- Claim C10: when the acquisition date 2020-01-15 has no table record,
the exact-date lookup raises KeyError, and the KeyError handler of main
crashes while formatting its message because it reads args.date, an
attribute the parser never defines — the run aborts with an uncaught
AttributeError, not with a message identifying the missing date. -/
theorem claim_C10_handler_crash :
    program (some [⟨⟨2020, 2, 1⟩, 1, 0, 0⟩])
        ⟨"iau", ⟨2020, 1, 15⟩, 10, 20, 2020, none⟩ =
      Outcome.uncaught PyErr.AttributeError := by
  norm_num +decide [program, mainRun, step1, List.find?, argsHasAttr]

/-- Claim C8: a run with share count -100 is not rejected: main performs no
positivity validation, reads the table, and computes a full (negative)
report, so there is no InvalidInput rejection before table access. -/
theorem claim_C8_no_validation :
    program (some [⟨⟨2020, 1, 15⟩, 1 / 10, 1 / 1000, 1 / 100⟩])
        ⟨"gld", ⟨2020, 1, 15⟩, -100, 18, 2020, none⟩ =
      Outcome.report ⟨-1800, -10, -1 / 10, -18, 17, -1782⟩ := by
  have hd : doubleRound (-1800 : ℚ) = -1800 := by
    rw [doubleRound, if_neg (by norm_num), if_pos (by norm_num)]
    have h2 : (-(-1800 : ℚ)) = 1800 := by norm_num
    rw [h2, doubleRoundPos_eq 10 (by norm_num) (by norm_num)]
    norm_num [roundHalfEven]
  have hb : basisInit (-100) 18 = -1800 := by
    rw [basisInit, show ((-100 : ℚ) * 18) = -1800 by norm_num, hd]
    norm_num [quantize2, roundHalfAway]
  norm_num +decide [program, mainRun, hb, step1, List.find?, carryForward,
    carryLoop, settle, sliceRange, step2, step3, step4, sliceFrom,
    List.filter, quantize8, quantize2, roundHalfAway]

end GoldTax
